import Mathlib

/-!
# GitDetective project page helper (`project_helper.js`)

A shallow embedding of `web/src/main/resources/webroot/helper/project_helper.js`:
the job-log tail (`displayLatestJobLog`), the build trigger button, and the
reference browser (`displayFunctionReference`, `displayMostReferencedFunctions`).

The script is event driven and single threaded: every handler runs to completion.
Each handler is therefore a function `Page → Page` on the part of the browser
state the script reads and writes.

Conventions
* an element's content is the list of chunks appended to it since it was last
  cleared (`.text('')`, `.html('')` give `[]`, `.append(x)` adds `x` at the end);
* `.show()` / `.hide()` set a visibility flag;
* `eb.send(...)` adds the request at the end of `sent`; its reply is a later event;
* `logPositionIndex` and `latestJobLogId` are globals declared outside this file,
  so their initial values are not fixed here: they are fields of `Page`.
-/

namespace GitDetective

/-! ## Data -/

/-- The body of a `GetLatestJobLog` reply: `{ job_id, logs }`. -/
structure JobLog where
  job_id : String
  logs : List String
deriving DecidableEq, Repr

/-- The argument of `displayFunctionReference`. -/
structure FunctionReference where
  id : String
  class_name : String
  function_signature : String
  external_reference_count : Nat
deriving DecidableEq, Repr

/-- One element of a `GetFunctionExternalReferences` reply. A field the reply
does not carry reads as `undefined` in the script: `lineNumber = none`. -/
structure ReferenceEntry where
  isFunction : Bool
  shortClassName : String
  shortFunctionSignature : String
  projectName : String
  commitSha1 : String
  fileLocation : String
  lineNumber : Option Nat
deriving DecidableEq, Repr

/-- Requests the script puts on the event bus. -/
inductive Request where
  | GetTriggerInformation (github_repository : String)
  | CreateJob (github_repository : String)
  | GetLatestJobLog (github_repository : String)
  | GetFunctionExternalReferences (function_id : String) (offset : Nat)
deriving DecidableEq, Repr

/-- A breadcrumb `<li>`: its id, its classes and its inner html. -/
structure Li where
  id : String
  classes : List String
  html : String
deriving DecidableEq, Repr

/-- The browser state the script works on. -/
structure Page where
  /-- the closure variable of `eb.onopen` -/
  canTriggerBuild : Bool
  /-- global: index of the last log line rendered -/
  logPositionIndex : Int
  /-- global: job id of the log on display, `none` when not set -/
  latestJobLogId : Option String
  /-- content of `#latest_job_log` -/
  latest_job_log : List String
  /-- whether `#trigger_build_button` has class `disabled` -/
  trigger_build_button_disabled : Bool
  /-- requests sent so far, oldest first -/
  sent : List Request
  /-- number of `setInterval` timers running -/
  timers : Nat
  /-- the `<li>` children of `#referenced_functions_breadcrumbs` -/
  referenced_functions_breadcrumbs : List Li
  /-- the `href` of `#most_referenced_functions_breadcrumb_link` -/
  breadcrumb_link_href : Option String
  /-- inner html of `#references_main_title` -/
  references_main_title : String
  /-- visibility of `#most_referenced_functions_table` -/
  most_referenced_functions_table_visible : Bool
  /-- visibility of `#function_references_table` -/
  function_references_table_visible : Bool
  /-- inner html of `#display_reference_amount_information` -/
  display_reference_amount_information : String
  /-- visibility of `#display_reference_amount_information` -/
  display_reference_amount_information_visible : Bool
  /-- rows of `#function_references` -/
  function_references : List String
deriving DecidableEq, Repr

/-! ## Job log tail -/

/-- The body of the `for` loop of `displayLatestJobLog` at index `i` on line
`line = logs.logs[i]`. -/
def logStep (line : String) (i : Int) (st : Page) : Page :=
  if st.logPositionIndex < i then
    { st with
      latest_job_log := st.latest_job_log ++ [line ++ "<br>"]
      logPositionIndex := i }
  else st

/-- The loop `for (var i = 0; i < logs.logs.length; i++)` of
`displayLatestJobLog`, entered at index `i` with the lines from `i` on. -/
def logLoop : List String → Int → Page → Page
  | [], _, st => st
  | line :: rest, i, st => logLoop rest (i + 1) (logStep line i st)

/-- The function `displayLatestJobLog(logs)`. -/
def displayLatestJobLog (st : Page) (logs : JobLog) : Page :=
  let st1 :=
    if some logs.job_id ≠ st.latestJobLogId then
      { st with
        latest_job_log := []
        logPositionIndex := -1
        latestJobLogId := some logs.job_id }
    else st
  logLoop logs.logs 0 st1

/-- The function `triggerJobLogTimer(githubRepository)`: one request at once and
one more timer. -/
def triggerJobLogTimer (githubRepository : String) (st : Page) : Page :=
  { st with
    sent := st.sent ++ [Request.GetLatestJobLog githubRepository]
    timers := st.timers + 1 }

/-- One tick of a timer set by `triggerJobLogTimer`. -/
def jobLogTimerTick (githubRepository : String) (st : Page) : Page :=
  { st with sent := st.sent ++ [Request.GetLatestJobLog githubRepository] }

/-- The callback of a `GetLatestJobLog` request: `Except.ok body` when
`error == null`, `Except.error message` otherwise. -/
def onLatestJobLog (reply : Except String JobLog) (st : Page) : Page :=
  match reply with
  | .ok body => displayLatestJobLog st body
  | .error message => { st with latest_job_log := st.latest_job_log ++ [message] }

/-- Snapshots rendered one after the other. -/
def renderAll (st : Page) (snapshots : List JobLog) : Page :=
  snapshots.foldl displayLatestJobLog st

/-! ## Build trigger -/

/-- What the script takes from outside this file: the globals `githubRepository`
and `gitdetectiveUrl`, and `String.prototype.toHtmlEntities`. -/
structure Env where
  githubRepository : String
  gitdetectiveUrl : String
  toHtmlEntities : String → String

/-- The callback of the `GetTriggerInformation` request; `Except.ok b` carries
`message.body.can_build`. -/
def onTriggerInformation (reply : Except String Bool) (st : Page) : Page :=
  match reply with
  | .ok can_build =>
    { st with
      canTriggerBuild := can_build
      trigger_build_button_disabled :=
        if can_build then false else st.trigger_build_button_disabled }
  | .error message => { st with latest_job_log := st.latest_job_log ++ [message] }

/-- The body of `eb.onopen` up to the registration of the click handler. -/
def onopen (env : Env) (st : Page) : Page :=
  let st1 := triggerJobLogTimer env.githubRepository st
  { st1 with
    canTriggerBuild := false
    sent := st1.sent ++ [Request.GetTriggerInformation env.githubRepository] }

/-- The click handler of `#trigger_build_button`. -/
def triggerBuildClick (env : Env) (st : Page) : Page :=
  if st.canTriggerBuild then
    { st with
      canTriggerBuild := false
      sent := st.sent ++ [Request.CreateJob env.githubRepository]
      trigger_build_button_disabled := true }
  else st

/-- The callback of the `CreateJob` request. -/
def onCreateJob (env : Env) (reply : Except String Unit) (st : Page) : Page :=
  match reply with
  | .ok _ =>
    triggerJobLogTimer env.githubRepository
      { st with latest_job_log := [], logPositionIndex := -1 }
  | .error message => { st with latest_job_log := st.latest_job_log ++ [message] }

/-! ## Reference browser -/

/-- The id the script gives to the breadcrumb it appends and looks up. -/
def breadcrumbId : String := "most_referenced_functions_breadcrumb"

/-- Applies `f` to what `$('#id')` selects among the breadcrumbs: the first
element carrying the id. The breadcrumb items are taken to be the only elements
of the page that may carry `breadcrumbId`. -/
def onFirstWithId (id : String) (f : Li → Li) : List Li → List Li
  | [] => []
  | li :: rest => if li.id = id then f li :: rest else li :: onFirstWithId id f rest

/-- The jQuery call `.addClass(c)` on one element. -/
def addClass (c : String) (li : Li) : Li :=
  if c ∈ li.classes then li else { li with classes := li.classes ++ [c] }

/-- The jQuery call `.removeClass(c)` on one element. -/
def removeClass (c : String) (li : Li) : Li :=
  { li with classes := li.classes.filter (fun d => d ≠ c) }

/-- Search of `s.indexOf(c)` from position `i` on. -/
def indexOfFrom (c : Char) : List Char → Int → Int
  | [], _ => -1
  | x :: xs, i => if x = c then i else indexOfFrom c xs (i + 1)

/-- The call `s.indexOf(c)` for a one-character `c`: the position of its first
occurrence, `-1` when there is none. Positions count characters here and UTF-16
units in the script; `indexOf` and `substring` use the same count, and `:` is one
unit, so the text cut out is the same. -/
def indexOf (s : String) (c : Char) : Int :=
  indexOfFrom c s.data 0

/-- The call `s.substring(start)`: `start` is clamped to `0 .. s.length`. -/
def substring (s : String) (start : Int) : String :=
  ⟨s.data.drop start.toNat⟩

/-- The expression
`projectName.substring(projectName.indexOf(":") + 1)`. -/
def ownerProject (projectName : String) : String :=
  substring projectName (indexOf projectName ':' + 1)

/-- The string a non-negative integer takes in a concatenation: its decimal
digits (what the script gives for every integer below `10^21`). -/
def numberText (n : Nat) : String := toString n

/-- The string `lineNumber` takes in a concatenation; an absent field gives
`undefined`. -/
def lineNumberText : Option Nat → String
  | none => "undefined"
  | some n => numberText n

/-- The variable `codeLocation` of the reply loop of `displayFunctionReference`. -/
def codeLocation (e : ReferenceEntry) : String :=
  "https://github.com/" ++ ownerProject e.projectName ++
    "/blob/" ++ e.commitSha1 ++ "/" ++ e.fileLocation ++ "#L" ++ lineNumberText e.lineNumber

/-- The third cell of a row, the same text in both branches. -/
def codeLocationCell (e : ReferenceEntry) : String :=
  "<td><a target=\"_blank\" href=\"" ++ codeLocation e ++ "\">" ++
    "<button type=\"button\" class=\"btn waves-effect waves-light btn-outline-primary\">Code location</button>" ++
    "</a></td>"

/-- The variable `rowHtml` at the end of one turn of the reply loop. -/
def rowHtml (env : Env) (e : ReferenceEntry) : String :=
  let r0 := "<tr>"
  let r3 :=
    if e.isFunction then
      let r1 := r0 ++ ("<td><h6>" ++ e.shortClassName ++
        "</h6> <div style=\"max-width: 450px; word-wrap:break-word;\" class=\"text-muted\">"
        ++ env.toHtmlEntities e.shortFunctionSignature ++ "</div></td>")
      let r2 := r1 ++ ("<td><a href=\"" ++ env.gitdetectiveUrl ++
        ownerProject e.projectName ++ "\">" ++
        "<button type=\"button\" class=\"btn waves-effect waves-light btn-outline-primary\">" ++
        ownerProject e.projectName ++
        "</button></a></td>")
      r2 ++ codeLocationCell e
    else
      let r1 := r0 ++ ("<td><h6>" ++ e.shortClassName ++
        "</h6> <div style=\"max-width: 450px; word-wrap:break-word;\" class=\"text-muted\">"
        ++ e.fileLocation ++ "</div></td>")
      let r2 := r1 ++ ("<td><button onclick=\x27location.href=\"" ++ env.gitdetectiveUrl ++
        ownerProject e.projectName ++
        "\";\x27 type=\"button\" class=\"btn waves-effect waves-light btn-outline-primary\">" ++
        ownerProject e.projectName ++
        "</button></td>")
      r2 ++ codeLocationCell e
  r3 ++ "</tr>"

/-- The html `displayFunctionReference` gives to
`#display_reference_amount_information`. -/
def referenceAmountHtml (external_reference_count : Nat) : String :=
  if external_reference_count < 10 then
    "<b>Displaying " ++ numberText external_reference_count ++ " of " ++
      numberText external_reference_count ++ "</b>"
  else
    "<b>Displaying 10 of " ++ numberText external_reference_count ++ "</b>"

/-- The function `displayFunctionReference(functionReference)` up to and
including the `eb.send`. -/
def displayFunctionReference (env : Env) (functionReference : FunctionReference)
    (st : Page) : Page :=
  let appended := st.referenced_functions_breadcrumbs ++
    [{ id := breadcrumbId, classes := ["breadcrumb-item", "active"],
       html := "<a>Function [id: " ++ functionReference.id ++ "]</a>" }]
  { st with
    referenced_functions_breadcrumbs :=
      onFirstWithId breadcrumbId (removeClass "active") appended
    breadcrumb_link_href := some "#"
    references_main_title :=
      "<small class=\"text-muted\"><b>Referenced function</b>: " ++
        functionReference.class_name ++ "." ++
        env.toHtmlEntities functionReference.function_signature ++ "</small>"
    most_referenced_functions_table_visible := false
    function_references_table_visible := true
    display_reference_amount_information :=
      referenceAmountHtml functionReference.external_reference_count
    sent := st.sent ++ [Request.GetFunctionExternalReferences functionReference.id 0] }

/-- The callback of the `GetFunctionExternalReferences` request. -/
def onFunctionExternalReferences (env : Env)
    (reply : Except String (List ReferenceEntry)) (st : Page) : Page :=
  match reply with
  | .ok body =>
    { st with
      function_references := body.foldl (fun rows e => rows ++ [rowHtml env e]) []
      display_reference_amount_information_visible := true }
  | .error message => { st with latest_job_log := st.latest_job_log ++ [message] }

/-- The function `displayMostReferencedFunctions()`. -/
def displayMostReferencedFunctions (st : Page) : Page :=
  let listItems := onFirstWithId breadcrumbId (addClass "active")
    st.referenced_functions_breadcrumbs
  { st with
    references_main_title := ""
    most_referenced_functions_table_visible := true
    function_references_table_visible := false
    referenced_functions_breadcrumbs :=
      if listItems.length > 1 then listItems.dropLast else listItems
    breadcrumb_link_href := none
    display_reference_amount_information_visible := false }

/-! ## Events -/

/-- What can happen to the page once the script is loaded. -/
inductive Event where
  | triggerInformationReply (reply : Except String Bool)
  | click
  | createJobReply (reply : Except String Unit)
  | timerTick
  | latestJobLogReply (reply : Except String JobLog)
  | selectFunction (functionReference : FunctionReference)
  | functionExternalReferencesReply (reply : Except String (List ReferenceEntry))
  | selectMostReferenced

/-- The handler the script runs on an event. -/
def handle (env : Env) (st : Page) : Event → Page
  | .triggerInformationReply reply => onTriggerInformation reply st
  | .click => triggerBuildClick env st
  | .createJobReply reply => onCreateJob env reply st
  | .timerTick => jobLogTimerTick env.githubRepository st
  | .latestJobLogReply reply => onLatestJobLog reply st
  | .selectFunction functionReference => displayFunctionReference env functionReference st
  | .functionExternalReferencesReply reply => onFunctionExternalReferences env reply st
  | .selectMostReferenced => displayMostReferencedFunctions st

/-- Events handled one after the other. -/
def run (env : Env) (st : Page) (events : List Event) : Page :=
  events.foldl (handle env) st

/-- Whether an event is a reply to `GetTriggerInformation`. -/
def Event.isTriggerInformationReply : Event → Bool
  | .triggerInformationReply _ => true
  | _ => false

/-- Number of `CreateJob` requests among the requests sent. -/
def createJobCount (sent : List Request) : Nat :=
  (sent.filter (fun r => match r with
    | .CreateJob _ => true
    | _ => false)).length

/-- The state Aggregate of the reference browser: one breadcrumb, active, the
table of most referenced functions on display and the reference table hidden. -/
def Aggregate (root : Li) (st : Page) : Prop :=
  st.referenced_functions_breadcrumbs = [root] ∧ "active" ∈ root.classes ∧
    st.most_referenced_functions_table_visible = true ∧
    st.function_references_table_visible = false

/-- A page for the examples: nothing rendered, nothing sent. -/
def emptyPage : Page where
  canTriggerBuild := false
  logPositionIndex := -1
  latestJobLogId := none
  latest_job_log := []
  trigger_build_button_disabled := true
  sent := []
  timers := 0
  referenced_functions_breadcrumbs := []
  breadcrumb_link_href := none
  references_main_title := ""
  most_referenced_functions_table_visible := true
  function_references_table_visible := false
  display_reference_amount_information := ""
  display_reference_amount_information_visible := false
  function_references := []

/-- An environment for the examples; its `toHtmlEntities` leaves the text as it is. -/
def exampleEnv : Env where
  githubRepository := "acme/widgets"
  gitdetectiveUrl := "https://gitdetective.example/"
  toHtmlEntities := fun s => s

/-- A page for the examples: two lines of job `7` rendered. -/
def renderedPage : Page :=
  { emptyPage with
    logPositionIndex := 1
    latestJobLogId := some "7"
    latest_job_log := ["a<br>", "b<br>"] }

/-- A page for the examples: the trigger gate open. -/
def openGatePage : Page :=
  { emptyPage with canTriggerBuild := true, trigger_build_button_disabled := false }

/-- A reference entry for the examples: a file of project `acme/widgets`, with no
line number. -/
def fileEntry : ReferenceEntry where
  isFunction := false
  shortClassName := "Widget"
  shortFunctionSignature := ""
  projectName := "github:acme/widgets"
  commitSha1 := "abc123"
  fileLocation := "src/Widget.java"
  lineNumber := none

/-- A function reference for the examples. -/
def exampleFunction : FunctionReference where
  id := "42"
  class_name := "com.acme.Widget"
  function_signature := "run()"
  external_reference_count := 47

/-- The root breadcrumb for the examples. -/
def rootCrumb : Li where
  id := "most_referenced_functions_breadcrumb"
  classes := ["breadcrumb-item", "active"]
  html := "<a id=\"most_referenced_functions_breadcrumb_link\">Most referenced functions</a>"

/-- A page for the examples: the reference browser in its state Aggregate. -/
def aggregatePage : Page :=
  { emptyPage with referenced_functions_breadcrumbs := [rootCrumb] }

/-! ## The log loop -/

theorem logLoop_nil (i : Int) (st : Page) : logLoop [] i st = st := rfl

theorem logLoop_cons (line : String) (rest : List String) (i : Int) (st : Page) :
    logLoop (line :: rest) i st = logLoop rest (i + 1) (logStep line i st) := rfl

/-- The loop started at an index the cursor has already reached changes nothing. -/
theorem logLoop_of_le (lines : List String) (i : Int) (st : Page)
    (h : i + lines.length ≤ st.logPositionIndex + 1) : logLoop lines i st = st := by
  induction lines generalizing i with
  | nil => rfl
  | cons line rest ih =>
    have hlen : ((line :: rest).length : Int) = rest.length + 1 := by simp
    rw [hlen] at h
    have hstep : logStep line i st = st := by
      unfold logStep
      rw [if_neg (by omega)]
    rw [logLoop_cons, hstep]
    exact ih (i + 1) (by omega)

/-- The loop started past the cursor appends every line and leaves the cursor on
the last one. -/
theorem logLoop_of_lt (lines : List String) (i : Int) (st : Page)
    (h : st.logPositionIndex < i) :
    logLoop lines i st =
      { st with
        latest_job_log := st.latest_job_log ++ lines.map (fun l => l ++ "<br>")
        logPositionIndex :=
          if lines = [] then st.logPositionIndex else i + (lines.length : Int) - 1 } := by
  induction lines generalizing i st with
  | nil => simp [logLoop]
  | cons line rest ih =>
    have hstep : logStep line i st =
        { st with
          latest_job_log := st.latest_job_log ++ [line ++ "<br>"]
          logPositionIndex := i } := by
      unfold logStep
      rw [if_pos h]
    rw [logLoop_cons, hstep, ih (i + 1) _ (by simp)]
    simp only [List.map_cons, List.length_cons, List.append_assoc, List.singleton_append,
      Nat.cast_add, Nat.cast_one, reduceCtorEq, if_false]
    congr 1
    split
    · next hr => simp [hr]
    · omega

/-- The loop over `front ++ back` is the loop over `front` followed by the loop
over `back`, entered at the index after `front`. -/
theorem logLoop_append (front back : List String) (i : Int) (st : Page) :
    logLoop (front ++ back) i st = logLoop back (i + front.length) (logLoop front i st) := by
  induction front generalizing i st with
  | nil => simp [logLoop]
  | cons line rest ih =>
    rw [List.cons_append, logLoop_cons, logLoop_cons, ih]
    have hidx : i + 1 + (rest.length : Int) = i + ((line :: rest).length : Int) := by
      simp only [List.length_cons, Nat.cast_add, Nat.cast_one]
      omega
    rw [hidx]

/-- The loop over the whole of `lines` from index `0`, whatever the cursor: the
lines past the cursor are appended in order, and the cursor ends on the last line
unless it was further already. -/
theorem logLoop_zero (lines : List String) (st : Page) :
    logLoop lines 0 st =
      { st with
        latest_job_log := st.latest_job_log ++
          (lines.drop (st.logPositionIndex + 1).toNat).map (fun l => l ++ "<br>")
        logPositionIndex :=
          if lines = [] then st.logPositionIndex
          else max st.logPositionIndex ((lines.length : Int) - 1) } := by
  by_cases hneg : st.logPositionIndex < 0
  · have hk : (st.logPositionIndex + 1).toNat = 0 := Int.toNat_eq_zero.mpr (by omega)
    rw [logLoop_of_lt lines 0 st hneg, hk, List.drop_zero]
    congr 1
    split
    · rfl
    · rw [max_eq_right (by omega)]
      omega
  by_cases hle : (lines.length : Int) ≤ st.logPositionIndex + 1
  · rw [logLoop_of_le lines 0 st (by omega)]
    have hdrop : lines.drop (st.logPositionIndex + 1).toNat = [] :=
      List.drop_eq_nil_of_le (by omega)
    rw [hdrop]
    have hcur : (if lines = [] then st.logPositionIndex
        else max st.logPositionIndex ((lines.length : Int) - 1)) = st.logPositionIndex := by
      split
      · rfl
      · exact max_eq_left (by omega)
    rw [hcur]
    simp
  · have hk : ((st.logPositionIndex + 1).toNat : Int) = st.logPositionIndex + 1 :=
      Int.toNat_of_nonneg (by omega)
    have hsplit := logLoop_append (lines.take (st.logPositionIndex + 1).toNat)
      (lines.drop (st.logPositionIndex + 1).toNat) 0 st
    rw [List.take_append_drop] at hsplit
    have htake : ((lines.take (st.logPositionIndex + 1).toNat).length : Int) =
        st.logPositionIndex + 1 := by
      rw [List.length_take, min_eq_left (by omega), hk]
    have hdroplen : ((lines.drop (st.logPositionIndex + 1).toNat).length : Int) =
        lines.length - (st.logPositionIndex + 1) := by
      rw [List.length_drop]
      omega
    have hne : lines ≠ [] := by
      intro h0
      rw [h0] at hle
      simp at hle
      omega
    have hdne : lines.drop (st.logPositionIndex + 1).toNat ≠ [] := by
      intro h0
      rw [h0] at hdroplen
      simp at hdroplen
      omega
    rw [hsplit, logLoop_of_le _ 0 st (by omega), logLoop_of_lt _ _ st (by omega), hdroplen,
      if_neg hne, if_neg hdne, max_eq_right (by omega)]
    congr 1
    omega

/-! ## Rendering a snapshot -/

/-- The cursor after `displayLatestJobLog`. -/
theorem displayLatestJobLog_cursor (st : Page) (logs : JobLog) :
    (displayLatestJobLog st logs).logPositionIndex =
      if logs.logs = [] then
        (if some logs.job_id ≠ st.latestJobLogId then -1 else st.logPositionIndex)
      else
        max (if some logs.job_id ≠ st.latestJobLogId then -1 else st.logPositionIndex)
          ((logs.logs.length : Int) - 1) := by
  unfold displayLatestJobLog
  rw [logLoop_zero]
  by_cases hid : some logs.job_id = st.latestJobLogId <;> simp [hid]

/-- The stored job id after `displayLatestJobLog` is the snapshot's. -/
theorem displayLatestJobLog_job_id (st : Page) (logs : JobLog) :
    (displayLatestJobLog st logs).latestJobLogId = some logs.job_id := by
  unfold displayLatestJobLog
  rw [logLoop_zero]
  by_cases hid : some logs.job_id = st.latestJobLogId <;> simp [hid]

/-- A snapshot of another job than the stored one: the page after the render. -/
theorem displayLatestJobLog_of_ne (st : Page) (logs : JobLog)
    (hid : some logs.job_id ≠ st.latestJobLogId) :
    displayLatestJobLog st logs =
      { st with
        latest_job_log := logs.logs.map (fun l => l ++ "<br>")
        logPositionIndex := (logs.logs.length : Int) - 1
        latestJobLogId := some logs.job_id } := by
  unfold displayLatestJobLog
  rw [if_pos hid, logLoop_zero]
  simp only [List.nil_append]
  have hk : ((-1 : Int) + 1).toNat = 0 := by decide
  rw [hk, List.drop_zero]
  congr 1
  split
  · next h0 => simp [h0]
  · exact max_eq_right (by omega)

/-- A snapshot of the stored job with no line past the cursor changes nothing. -/
theorem displayLatestJobLog_of_stale (st : Page) (logs : JobLog)
    (hid : some logs.job_id = st.latestJobLogId)
    (hlen : (logs.logs.length : Int) ≤ st.logPositionIndex + 1) :
    displayLatestJobLog st logs = st := by
  unfold displayLatestJobLog
  rw [if_neg (by simpa using hid)]
  exact logLoop_of_le logs.logs 0 st (by omega)

/-- After a render the snapshot has no line past the cursor, an empty snapshot
apart. -/
theorem displayLatestJobLog_reaches (st : Page) (logs : JobLog) (hne : logs.logs ≠ []) :
    (logs.logs.length : Int) ≤ (displayLatestJobLog st logs).logPositionIndex + 1 := by
  rw [displayLatestJobLog_cursor, if_neg hne]
  have := le_max_right
    (if some logs.job_id ≠ st.latestJobLogId then (-1 : Int) else st.logPositionIndex)
    ((logs.logs.length : Int) - 1)
  omega

/-- Rendering with no line at all goes through the loop at once. -/
theorem displayLatestJobLog_of_nil (st : Page) (logs : JobLog) (hnil : logs.logs = [])
    (hid : some logs.job_id = st.latestJobLogId) : displayLatestJobLog st logs = st := by
  unfold displayLatestJobLog
  rw [if_neg (by simpa using hid), hnil]
  rfl

theorem renderAll_nil (st : Page) : renderAll st [] = st := rfl

theorem renderAll_cons (st : Page) (s : JobLog) (rest : List JobLog) :
    renderAll st (s :: rest) = renderAll (displayLatestJobLog st s) rest := rfl

/-- The cursor along a run of snapshots of one job with lengths that do not
decrease, from any page whose cursor is at least `-1`, at most the first length
minus one, and either `-1` or stored with that job. -/
theorem renderAll_cursor (j : String) (snapshots : List JobLog) (st : Page)
    (hjob : ∀ s ∈ snapshots, s.job_id = j)
    (hlen : List.Chain' (fun a b : JobLog => a.logs.length ≤ b.logs.length) snapshots)
    (hlow : -1 ≤ st.logPositionIndex)
    (hhigh : ∀ s ∈ snapshots.head?, st.logPositionIndex ≤ (s.logs.length : Int) - 1)
    (hst : st.logPositionIndex = -1 ∨ st.latestJobLogId = some j) :
    ∀ k s, snapshots[k]? = some s →
      (renderAll st (snapshots.take k)).logPositionIndex ≤
        (renderAll st (snapshots.take (k + 1))).logPositionIndex ∧
      (renderAll st (snapshots.take (k + 1))).logPositionIndex = (s.logs.length : Int) - 1 := by
  induction snapshots generalizing st with
  | nil => intro k s hk; simp at hk
  | cons s0 rest ih =>
    have hj0 : s0.job_id = j := hjob s0 (by simp)
    have hh0 : st.logPositionIndex ≤ (s0.logs.length : Int) - 1 := hhigh s0 (by simp)
    have hcur : (displayLatestJobLog st s0).logPositionIndex = (s0.logs.length : Int) - 1 := by
      rw [displayLatestJobLog_cursor]
      rcases hst with h1 | h1
      · rw [h1]
        split <;> split <;> simp_all
      · rw [h1, hj0]
        simp only [ne_eq, not_true_eq_false, if_false]
        split
        · next h0 => rw [h0] at hh0; simp at hh0; simp [h0]; omega
        · exact max_eq_right hh0
    intro k s hk
    cases k with
    | zero =>
      simp only [List.getElem?_cons_zero, Option.some.injEq] at hk
      subst hk
      simp only [List.take_zero, renderAll_nil, zero_add, List.take_succ_cons, renderAll_cons]
      rw [hcur]
      exact ⟨hh0, rfl⟩
    | succ k =>
      simp only [List.getElem?_cons_succ] at hk
      simp only [List.take_succ_cons, renderAll_cons]
      refine ih (displayLatestJobLog st s0) (fun t ht => hjob t (by simp [ht]))
        (List.Chain'.tail hlen) (by rw [hcur]; omega) ?_ ?_ k s hk
      · intro t ht
        rw [hcur]
        cases rest with
        | nil => simp at ht
        | cons t0 rest1 =>
          simp only [List.head?_cons, Option.mem_def, Option.some.injEq] at ht
          subst ht
          have := (List.chain'_cons.mp hlen).1
          omega
      · right
        rw [displayLatestJobLog_job_id, hj0]

/-! ## Trigger gate -/

/-- The loop of `displayLatestJobLog` touches the log view and the cursor only. -/
theorem displayLatestJobLog_gate (st : Page) (logs : JobLog) :
    (displayLatestJobLog st logs).canTriggerBuild = st.canTriggerBuild ∧
      (displayLatestJobLog st logs).sent = st.sent := by
  unfold displayLatestJobLog
  rw [logLoop_zero]
  split <;> exact ⟨rfl, rfl⟩

theorem createJobCount_append_other (sent : List Request) (r : Request)
    (hr : ∀ repo, r ≠ Request.CreateJob repo) :
    createJobCount (sent ++ [r]) = createJobCount sent := by
  unfold createJobCount
  rw [List.filter_append, List.length_append]
  cases r with
  | CreateJob repo => exact absurd rfl (hr repo)
  | _ => simp

theorem createJobCount_append_createJob (sent : List Request) (repo : String) :
    createJobCount (sent ++ [Request.CreateJob repo]) = createJobCount sent + 1 := by
  unfold createJobCount
  rw [List.filter_append, List.length_append]
  simp

/-- With the gate closed the click handler does nothing. -/
theorem triggerBuildClick_of_closed (env : Env) (st : Page)
    (hclosed : st.canTriggerBuild = false) : triggerBuildClick env st = st := by
  unfold triggerBuildClick
  rw [hclosed]
  rfl

/-- With the gate closed, no event but a reply to `GetTriggerInformation` opens it
or sends a `CreateJob`. -/
theorem handle_gate_closed (env : Env) (st : Page) (e : Event)
    (hclosed : st.canTriggerBuild = false) (he : e.isTriggerInformationReply = false) :
    (handle env st e).canTriggerBuild = false ∧
      createJobCount (handle env st e).sent = createJobCount st.sent := by
  cases e with
  | triggerInformationReply reply => simp [Event.isTriggerInformationReply] at he
  | click => simp [handle, triggerBuildClick, hclosed]
  | createJobReply reply =>
    cases reply with
    | ok u =>
      refine ⟨hclosed, ?_⟩
      exact createJobCount_append_other _ _ (fun repo => by simp)
    | error message => exact ⟨hclosed, rfl⟩
  | timerTick =>
    refine ⟨hclosed, ?_⟩
    exact createJobCount_append_other _ _ (fun repo => by simp)
  | latestJobLogReply reply =>
    cases reply with
    | ok body =>
      have h := displayLatestJobLog_gate st body
      simp only [handle, onLatestJobLog]
      rw [h.1, h.2]
      exact ⟨hclosed, rfl⟩
    | error message => exact ⟨hclosed, rfl⟩
  | selectFunction functionReference =>
    refine ⟨hclosed, ?_⟩
    exact createJobCount_append_other _ _ (fun repo => by simp)
  | functionExternalReferencesReply reply =>
    cases reply with
    | ok body => exact ⟨hclosed, rfl⟩
    | error message => exact ⟨hclosed, rfl⟩
  | selectMostReferenced => exact ⟨hclosed, rfl⟩

/-- The same over a run of events. -/
theorem run_gate_closed (env : Env) (events : List Event) (st : Page)
    (hclosed : st.canTriggerBuild = false)
    (hev : ∀ e ∈ events, e.isTriggerInformationReply = false) :
    (run env st events).canTriggerBuild = false ∧
      createJobCount (run env st events).sent = createJobCount st.sent := by
  induction events generalizing st with
  | nil => exact ⟨hclosed, rfl⟩
  | cons e rest ih =>
    have h1 := handle_gate_closed env st e hclosed (hev e (by simp))
    have h2 := ih (handle env st e) h1.1 (fun e1 h => hev e1 (by simp [h]))
    exact ⟨h2.1, h2.2.trans h1.2⟩

/-! ## Claims on the job log tail and the trigger -/

/-- C1 (monotonic cursor): snapshots of one job with log lengths that do not
decrease, rendered in order from a cursor at `-1`: the cursor does not decrease
from one render to the next, it stands on the last line of each snapshot just
rendered, and so on the last line of the last snapshot at the end. -/
theorem monotonic_cursor (j : String) (st : Page) (snapshots : List JobLog)
    (hinit : st.logPositionIndex = -1)
    (hjob : ∀ s ∈ snapshots, s.job_id = j)
    (hlen : List.Chain' (fun a b : JobLog => a.logs.length ≤ b.logs.length) snapshots) :
    (∀ k s, snapshots[k]? = some s →
      (renderAll st (snapshots.take k)).logPositionIndex ≤
        (renderAll st (snapshots.take (k + 1))).logPositionIndex ∧
      (renderAll st (snapshots.take (k + 1))).logPositionIndex = (s.logs.length : Int) - 1) ∧
    (∀ s, snapshots.getLast? = some s →
      (renderAll st snapshots).logPositionIndex = (s.logs.length : Int) - 1) := by
  have hall := renderAll_cursor j snapshots st hjob hlen (by omega)
    (fun s _ => by omega) (Or.inl hinit)
  refine ⟨hall, ?_⟩
  intro s hs
  have hne : snapshots ≠ [] := by
    intro h0
    rw [h0] at hs
    simp at hs
  have hpos : 0 < snapshots.length := List.length_pos.mpr hne
  rw [List.getLast?_eq_getElem?] at hs
  have h := (hall (snapshots.length - 1) s hs).2
  have hk : snapshots.length - 1 + 1 = snapshots.length := by omega
  rw [hk, List.take_length] at h
  exact h

theorem monotonic_cursor_witness :
    emptyPage.logPositionIndex = -1 ∧
    (renderAll emptyPage
      [⟨"7", ["a"]⟩, ⟨"7", ["a", "b"]⟩, ⟨"7", ["a", "b", "c"]⟩]).logPositionIndex = 2 :=
  ⟨rfl, (monotonic_cursor "7" emptyPage
    [⟨"7", ["a"]⟩, ⟨"7", ["a", "b"]⟩, ⟨"7", ["a", "b", "c"]⟩] rfl
    (by simp) (by simp [List.Chain'])).2 ⟨"7", ["a", "b", "c"]⟩ rfl⟩

/-- C2 (no duplicate append): for every snapshot and every page (any stored job
id, any cursor, any view content), rendering the snapshot a second time right
after the first changes nothing: no line is appended, and view, cursor and
stored job id stay as the first render left them. -/
theorem no_duplicate_append (st : Page) (logs : JobLog) :
    displayLatestJobLog (displayLatestJobLog st logs) logs = displayLatestJobLog st logs ∧
    (displayLatestJobLog (displayLatestJobLog st logs) logs).latest_job_log =
      (displayLatestJobLog st logs).latest_job_log := by
  have h : displayLatestJobLog (displayLatestJobLog st logs) logs =
      displayLatestJobLog st logs := by
    by_cases hnil : logs.logs = []
    · exact displayLatestJobLog_of_nil _ logs hnil (displayLatestJobLog_job_id st logs).symm
    · exact displayLatestJobLog_of_stale _ logs (displayLatestJobLog_job_id st logs).symm
        (displayLatestJobLog_reaches st logs hnil)
  exact ⟨h, by rw [h]⟩

/-- C3 (job-change reset): a snapshot whose job id is not the stored one (the
stored one may be unset): the render is the loop run on the page with the view
cleared, the cursor at `-1` and the snapshot's job id stored; afterwards the view
holds the snapshot's lines in order (each followed by a line break), the stored
job id is the snapshot's and the cursor is the number of lines minus one. -/
theorem job_change_reset (st : Page) (logs : JobLog)
    (hid : some logs.job_id ≠ st.latestJobLogId) :
    displayLatestJobLog st logs =
      logLoop logs.logs 0
        { st with
          latest_job_log := []
          logPositionIndex := -1
          latestJobLogId := some logs.job_id } ∧
    (displayLatestJobLog st logs).latest_job_log = logs.logs.map (fun l => l ++ "<br>") ∧
    (displayLatestJobLog st logs).latestJobLogId = some logs.job_id ∧
    (displayLatestJobLog st logs).logPositionIndex = (logs.logs.length : Int) - 1 := by
  refine ⟨?_, ?_, ?_, ?_⟩
  · unfold displayLatestJobLog
    rw [if_pos hid]
  all_goals rw [displayLatestJobLog_of_ne st logs hid]

theorem job_change_reset_witness :
    some (JobLog.mk "8" ["x", "y", "z"]).job_id ≠ renderedPage.latestJobLogId ∧
    (displayLatestJobLog renderedPage ⟨"8", ["x", "y", "z"]⟩).latest_job_log =
      ["x<br>", "y<br>", "z<br>"] :=
  ⟨by decide, (job_change_reset renderedPage ⟨"8", ["x", "y", "z"]⟩ (by decide)).2.1⟩

/-- C4 (stale shorter response): a snapshot of the stored job with no more lines
than the cursor has passed leaves the page as it is: nothing is appended, the
view is not cleared and the cursor does not move. -/
theorem stale_response_noop (st : Page) (logs : JobLog)
    (hid : some logs.job_id = st.latestJobLogId)
    (hlen : (logs.logs.length : Int) ≤ st.logPositionIndex + 1) :
    displayLatestJobLog st logs = st ∧
    (displayLatestJobLog st logs).latest_job_log = st.latest_job_log ∧
    (displayLatestJobLog st logs).logPositionIndex = st.logPositionIndex := by
  rw [displayLatestJobLog_of_stale st logs hid hlen]
  exact ⟨rfl, rfl, rfl⟩

theorem stale_response_noop_witness :
    some (JobLog.mk "7" ["a"]).job_id = renderedPage.latestJobLogId ∧
    (((JobLog.mk "7" ["a"]).logs.length : Int) ≤ renderedPage.logPositionIndex + 1) ∧
    displayLatestJobLog renderedPage ⟨"7", ["a"]⟩ = renderedPage :=
  ⟨by decide, by decide, (stale_response_noop renderedPage ⟨"7", ["a"]⟩ (by decide) (by decide)).1⟩

/-- C5, as the claim states it, fails: after a successful `CreateJob`
acknowledgment on a page that shows job `7`, the stored job id is still `7`, not
unset, and a snapshot of job `7` does not take the branch of a new job. -/
theorem trigger_reset_keeps_job_id :
    (onCreateJob exampleEnv (.ok ()) renderedPage).latestJobLogId = some "7" ∧
    (onCreateJob exampleEnv (.ok ()) renderedPage).latestJobLogId ≠ none ∧
    ¬ (some (JobLog.mk "7" ["a"]).job_id ≠
      (onCreateJob exampleEnv (.ok ()) renderedPage).latestJobLogId) := by
  refine ⟨rfl, ?_, ?_⟩
  · intro h
    cases h
  · intro h
    exact h rfl

/-- C5 (trigger reset), amended: after a successful `CreateJob` acknowledgment
the log view is empty, the cursor is `-1` and the stored job id is what it was;
the next snapshot rendered, whatever its job id, leaves the view holding that
snapshot's lines only, the cursor on its last line and its job id stored. -/
theorem trigger_reset (env : Env) (st : Page) :
    (onCreateJob env (.ok ()) st).latest_job_log = [] ∧
    (onCreateJob env (.ok ()) st).logPositionIndex = -1 ∧
    (onCreateJob env (.ok ()) st).latestJobLogId = st.latestJobLogId ∧
    ∀ logs : JobLog,
      displayLatestJobLog (onCreateJob env (.ok ()) st) logs =
        { onCreateJob env (.ok ()) st with
          latest_job_log := logs.logs.map (fun l => l ++ "<br>")
          logPositionIndex := (logs.logs.length : Int) - 1
          latestJobLogId := some logs.job_id } := by
  refine ⟨rfl, rfl, rfl, ?_⟩
  intro logs
  by_cases hid : some logs.job_id = (onCreateJob env (.ok ()) st).latestJobLogId
  · have hlog : (onCreateJob env (.ok ()) st).latest_job_log = [] := rfl
    have hcur : (onCreateJob env (.ok ()) st).logPositionIndex = -1 := rfl
    unfold displayLatestJobLog
    rw [if_neg (by simpa using hid), logLoop_zero, hlog, hcur, ← hid]
    have hk : ((-1 : Int) + 1).toNat = 0 := by decide
    rw [hk, List.drop_zero, List.nil_append]
    congr 1
    split
    · next h0 => simp [h0]
    · exact max_eq_right (by omega)
  · exact displayLatestJobLog_of_ne _ logs hid

/-- C6 (trigger gate idempotence): from a page with `canTriggerBuild` true, the
first activation of the click handler closes the gate and sends one `CreateJob`
at once; whatever events follow short of a reply to `GetTriggerInformation` (the
`CreateJob` reply, with success or with an error, among them or not), the second
activation changes nothing, and one `CreateJob` in all has been sent. -/
theorem trigger_gate_idempotence (env : Env) (st : Page) (events : List Event)
    (hopen : st.canTriggerBuild = true)
    (hev : ∀ e ∈ events, e.isTriggerInformationReply = false) :
    (triggerBuildClick env st).canTriggerBuild = false ∧
    (triggerBuildClick env st).sent = st.sent ++ [Request.CreateJob env.githubRepository] ∧
    triggerBuildClick env (run env (triggerBuildClick env st) events) =
      run env (triggerBuildClick env st) events ∧
    createJobCount (triggerBuildClick env (run env (triggerBuildClick env st) events)).sent =
      createJobCount st.sent + 1 := by
  have hclosed : (triggerBuildClick env st).canTriggerBuild = false := by
    simp [triggerBuildClick, hopen]
  have hsent : (triggerBuildClick env st).sent =
      st.sent ++ [Request.CreateJob env.githubRepository] := by
    simp [triggerBuildClick, hopen]
  have hrun := run_gate_closed env events (triggerBuildClick env st) hclosed hev
  have hsecond : triggerBuildClick env (run env (triggerBuildClick env st) events) =
      run env (triggerBuildClick env st) events :=
    triggerBuildClick_of_closed env _ hrun.1
  refine ⟨hclosed, hsent, hsecond, ?_⟩
  rw [hsecond, hrun.2, hsent, createJobCount_append_createJob]

theorem trigger_gate_idempotence_witness :
    openGatePage.canTriggerBuild = true ∧
    createJobCount (triggerBuildClick exampleEnv
      (run exampleEnv (triggerBuildClick exampleEnv openGatePage)
        [Event.createJobReply (.ok ()), Event.timerTick])).sent = 1 :=
  ⟨rfl, (trigger_gate_idempotence exampleEnv openGatePage
    [Event.createJobReply (.ok ()), Event.timerTick] rfl
    (by simp [Event.isTriggerInformationReply])).2.2.2⟩

/-! ## Strings -/

theorem indexOfFrom_cons (c x : Char) (xs : List Char) (i : Int) :
    indexOfFrom c (x :: xs) i = if x = c then i else indexOfFrom c xs (i + 1) := rfl

theorem indexOfFrom_of_not_mem (c : Char) (l : List Char) (i : Int) (h : c ∉ l) :
    indexOfFrom c l i = -1 := by
  induction l generalizing i with
  | nil => rfl
  | cons x xs ih =>
    have hx : x ≠ c := fun e => h (by simp [e])
    have hxs : c ∉ xs := fun e => h (by simp [e])
    rw [indexOfFrom_cons, if_neg hx]
    exact ih (i + 1) hxs

theorem indexOfFrom_first (c : Char) (l r : List Char) (i : Int) (h : c ∉ l) :
    indexOfFrom c (l ++ c :: r) i = i + (l.length : Int) := by
  induction l generalizing i with
  | nil => simp [indexOfFrom]
  | cons x xs ih =>
    have hx : x ≠ c := fun e => h (by simp [e])
    have hxs : c ∉ xs := fun e => h (by simp [e])
    rw [List.cons_append, indexOfFrom_cons, if_neg hx, ih (i + 1) hxs]
    simp only [List.length_cons, Nat.cast_add, Nat.cast_one]
    omega

/-- A name with no colon is left as it is. -/
theorem ownerProject_of_no_colon (p : String) (hp : ':' ∉ p.data) : ownerProject p = p := by
  unfold ownerProject indexOf substring
  rw [indexOfFrom_of_not_mem ':' p.data 0 hp]
  rfl

/-- What follows the first colon is kept, the rest dropped. -/
theorem ownerProject_of_colon (p s : String) (hp : ':' ∉ p.data) :
    ownerProject (p ++ ":" ++ s) = s := by
  have hdata : (p ++ ":" ++ s).data = p.data ++ ':' :: s.data := by
    simp [String.data_append]
  unfold ownerProject indexOf substring
  rw [hdata, indexOfFrom_first ':' p.data s.data 0 hp]
  have hk : (0 + (p.data.length : Int) + 1).toNat = p.data.length + 1 := by omega
  rw [hk]
  have hdrop : List.drop (p.data.length + 1) (p.data ++ ':' :: s.data) = s.data := by
    rw [List.drop_append_eq_append_drop]
    simp
  rw [hdrop]

/-! ## Claims on the reference browser -/

/-- C7, as the claim states it, fails: for a reference entry that is not a
function and carries no line number, the code-location link ends in a line
anchor, `#Lundefined`, so it is not the link without anchor. -/
theorem file_link_has_anchor :
    fileEntry.isFunction = false ∧
    codeLocation fileEntry =
      "https://github.com/acme/widgets/blob/abc123/src/Widget.java#Lundefined" ∧
    codeLocation fileEntry ≠
      "https://github.com/" ++ ownerProject fileEntry.projectName ++ "/blob/" ++
        fileEntry.commitSha1 ++ "/" ++ fileEntry.fileLocation := by
  refine ⟨rfl, by decide, by decide⟩

/-- C7 (link of an entry that is not a function), amended: the code-location link
is `https://github.com/` + ownerProject + `/blob/` + commitSha1 + `/` +
fileLocation + `#L` + lineNumber, the same as for a function, and the row carries
it as the `href` of its third cell. -/
theorem file_link (env : Env) (e : ReferenceEntry) (hfile : e.isFunction = false) :
    codeLocation e =
      "https://github.com/" ++ ownerProject e.projectName ++ "/blob/" ++ e.commitSha1 ++
        "/" ++ e.fileLocation ++ "#L" ++ lineNumberText e.lineNumber ∧
    rowHtml env e =
      "<tr>" ++ ("<td><h6>" ++ e.shortClassName ++
        "</h6> <div style=\"max-width: 450px; word-wrap:break-word;\" class=\"text-muted\">"
        ++ e.fileLocation ++ "</div></td>") ++
      ("<td><button onclick=\x27location.href=\"" ++ env.gitdetectiveUrl ++
        ownerProject e.projectName ++
        "\";\x27 type=\"button\" class=\"btn waves-effect waves-light btn-outline-primary\">" ++
        ownerProject e.projectName ++ "</button></td>") ++
      ("<td><a target=\"_blank\" href=\"" ++ codeLocation e ++ "\">" ++
        "<button type=\"button\" class=\"btn waves-effect waves-light btn-outline-primary\">Code location</button>" ++
        "</a></td>") ++ "</tr>" := by
  refine ⟨rfl, ?_⟩
  unfold rowHtml codeLocationCell
  simp only [hfile, Bool.false_eq_true, if_false]

theorem file_link_witness :
    fileEntry.isFunction = false ∧
    codeLocation fileEntry =
      "https://github.com/" ++ ownerProject fileEntry.projectName ++ "/blob/" ++
        fileEntry.commitSha1 ++ "/" ++ fileEntry.fileLocation ++ "#L" ++
        lineNumberText fileEntry.lineNumber :=
  ⟨rfl, (file_link exampleEnv fileEntry rfl).1⟩

/-- C8 (reference count display): for every count `total`, the indicator set by
`displayFunctionReference` is the text `Displaying {shown} of {total}` in bold,
with `shown = min(total, 10)`; a count of 3 gives `Displaying 3 of 3` and a count
of 47 gives `Displaying 10 of 47`. -/
theorem reference_count_display (env : Env) (fr : FunctionReference) (st : Page) :
    (displayFunctionReference env fr st).display_reference_amount_information =
      "<b>" ++ ("Displaying " ++ numberText (min fr.external_reference_count 10) ++ " of " ++
        numberText fr.external_reference_count) ++ "</b>" ∧
    referenceAmountHtml 3 = "<b>" ++ "Displaying 3 of 3" ++ "</b>" ∧
    referenceAmountHtml 47 = "<b>" ++ "Displaying 10 of 47" ++ "</b>" := by
  refine ⟨?_, by decide, by decide⟩
  show referenceAmountHtml fr.external_reference_count = _
  unfold referenceAmountHtml
  by_cases h : fr.external_reference_count < 10
  · rw [if_pos h, min_eq_left (by omega)]
    have h0 : "<b>Displaying " = "<b>" ++ "Displaying " := by decide
    rw [h0]
    simp only [String.append_assoc]
  · rw [if_neg h, min_eq_right (by omega)]
    have h0 : "<b>Displaying 10 of " = "<b>" ++ ("Displaying " ++ numberText 10 ++ " of ") := by
      decide
    rw [h0]
    simp only [String.append_assoc]

/-- C9 (project-name stripping): the owner-project text is the project name
without everything up to and including its first colon: for `p` with no colon,
`p + ':' + s` gives `s` (so does the code-location link), and `p` itself is left
as it is. -/
theorem project_name_stripping (p s : String) (hp : ':' ∉ p.data) :
    ownerProject (p ++ ":" ++ s) = s ∧ ownerProject p = p ∧
    ∀ (env : Env) (e : ReferenceEntry), e.projectName = p ++ ":" ++ s →
      codeLocation e =
        "https://github.com/" ++ s ++ "/blob/" ++ e.commitSha1 ++ "/" ++ e.fileLocation ++
          "#L" ++ lineNumberText e.lineNumber ∧
      (e.isFunction = true →
        rowHtml env e =
          "<tr>" ++ ("<td><h6>" ++ e.shortClassName ++
            "</h6> <div style=\"max-width: 450px; word-wrap:break-word;\" class=\"text-muted\">"
            ++ env.toHtmlEntities e.shortFunctionSignature ++ "</div></td>") ++
          ("<td><a href=\"" ++ env.gitdetectiveUrl ++ s ++ "\">" ++
            "<button type=\"button\" class=\"btn waves-effect waves-light btn-outline-primary\">" ++
            s ++ "</button></a></td>") ++ codeLocationCell e ++ "</tr>") ∧
      (e.isFunction = false →
        rowHtml env e =
          "<tr>" ++ ("<td><h6>" ++ e.shortClassName ++
            "</h6> <div style=\"max-width: 450px; word-wrap:break-word;\" class=\"text-muted\">"
            ++ e.fileLocation ++ "</div></td>") ++
          ("<td><button onclick=\x27location.href=\"" ++ env.gitdetectiveUrl ++ s ++
            "\";\x27 type=\"button\" class=\"btn waves-effect waves-light btn-outline-primary\">" ++
            s ++ "</button></td>") ++ codeLocationCell e ++ "</tr>") := by
  refine ⟨ownerProject_of_colon p s hp, ownerProject_of_no_colon p hp, ?_⟩
  intro env e he
  have hown : ownerProject e.projectName = s := by
    rw [he, ownerProject_of_colon p s hp]
  refine ⟨?_, ?_, ?_⟩
  · unfold codeLocation
    rw [hown]
  · intro hfun
    unfold rowHtml
    simp only [hfun, if_true, hown]
  · intro hfile
    unfold rowHtml
    simp only [hfile, Bool.false_eq_true, if_false, hown]

theorem project_name_stripping_witness :
    ':' ∉ "github".data ∧ ownerProject "github:acme/widgets" = "acme/widgets" :=
  ⟨by decide, (project_name_stripping "github" "acme/widgets" (by decide)).1⟩

/-- The element `$('#id')` selects is the first of the list when it carries the id. -/
theorem onFirstWithId_head (id : String) (f : Li → Li) (li : Li) (rest : List Li)
    (h : li.id = id) : onFirstWithId id f (li :: rest) = f li :: rest := by
  simp [onFirstWithId, h]

theorem removeClass_id (c : String) (li : Li) : (removeClass c li).id = li.id := rfl

/-- Taking the class `active` off an element and putting it back keeps its id,
its html and its set of classes, when it had the class. -/
theorem addClass_removeClass (li : Li) (h : "active" ∈ li.classes) :
    (addClass "active" (removeClass "active" li)).id = li.id ∧
    (addClass "active" (removeClass "active" li)).html = li.html ∧
    ∀ c, c ∈ (addClass "active" (removeClass "active" li)).classes ↔ c ∈ li.classes := by
  have hnot : "active" ∉ (removeClass "active" li).classes := by
    simp [removeClass]
  unfold addClass
  rw [if_neg hnot]
  refine ⟨rfl, rfl, ?_⟩
  intro c
  simp only [removeClass, List.mem_append, List.mem_filter, List.mem_singleton,
    decide_eq_true_eq]
  constructor
  · rintro (⟨hc, _⟩ | hc)
    · exact hc
    · rw [hc]; exact h
  · intro hc
    by_cases hca : c = "active"
    · exact Or.inr hca
    · exact Or.inl ⟨hc, hca⟩

/-- C10 (navigation round trip): from the state Aggregate with root breadcrumb
`root`, `displayFunctionReference(fr)` followed by
`displayMostReferencedFunctions()` leaves the table of most referenced functions
on display, the reference table hidden, the title empty, the count indicator
hidden, and one breadcrumb: the root (same id, same html, same set of classes),
which is active. -/
theorem navigation_round_trip (env : Env) (root : Li) (st : Page)
    (fr : FunctionReference) (hagg : Aggregate root st) :
    (displayMostReferencedFunctions
      (displayFunctionReference env fr st)).most_referenced_functions_table_visible = true ∧
    (displayMostReferencedFunctions
      (displayFunctionReference env fr st)).function_references_table_visible = false ∧
    (displayMostReferencedFunctions
      (displayFunctionReference env fr st)).references_main_title = "" ∧
    (displayMostReferencedFunctions
      (displayFunctionReference env fr st)).display_reference_amount_information_visible
        = false ∧
    ∃ root2 : Li,
      (displayMostReferencedFunctions
        (displayFunctionReference env fr st)).referenced_functions_breadcrumbs = [root2] ∧
      root2.id = root.id ∧ root2.html = root.html ∧ "active" ∈ root2.classes ∧
      (∀ c, c ∈ root2.classes ↔ c ∈ root.classes) ∧
      Aggregate root2 (displayMostReferencedFunctions (displayFunctionReference env fr st)) := by
  obtain ⟨hcrumbs, hactive, -, -⟩ := hagg
  refine ⟨rfl, rfl, rfl, rfl, ?_⟩
  by_cases hid : root.id = breadcrumbId
  · have hround := addClass_removeClass root hactive
    have hlist : (displayMostReferencedFunctions
        (displayFunctionReference env fr st)).referenced_functions_breadcrumbs =
        [addClass "active" (removeClass "active" root)] := by
      simp only [displayMostReferencedFunctions, displayFunctionReference, hcrumbs,
        List.singleton_append]
      rw [onFirstWithId_head _ _ _ _ hid, onFirstWithId_head _ _ _ _ (by exact hid)]
      simp
    have hact : "active" ∈ (addClass "active" (removeClass "active" root)).classes :=
      (hround.2.2 "active").mpr hactive
    exact ⟨_, hlist, hround.1, hround.2.1, hact, hround.2.2, hlist, hact, rfl, rfl⟩
  · have hlist : (displayMostReferencedFunctions
        (displayFunctionReference env fr st)).referenced_functions_breadcrumbs = [root] := by
      simp only [displayMostReferencedFunctions, displayFunctionReference, hcrumbs,
        List.singleton_append]
      simp [onFirstWithId, hid, removeClass_id]
    exact ⟨root, hlist, rfl, rfl, hactive, fun _ => Iff.rfl, hlist, hactive, rfl, rfl⟩

theorem navigation_round_trip_witness :
    Aggregate rootCrumb aggregatePage ∧
    (displayMostReferencedFunctions
      (displayFunctionReference exampleEnv exampleFunction
        aggregatePage)).function_references_table_visible = false :=
  ⟨⟨rfl, by decide, rfl, rfl⟩,
    (navigation_round_trip exampleEnv rootCrumb aggregatePage exampleFunction
      ⟨rfl, by decide, rfl, rfl⟩).2.1⟩

end GitDetective
